import Mathlib

/-!
# Verification of the chatty-kathy File Search ingestion core

Shallow embedding of `src/lib/ingestion/file-search/client.ts` (both API
variants) and `src/lib/ingestion/file-search/uploader.ts`.

Modelling conventions:
* `async` methods that can `throw` become functions into `Except String α`,
  the `String` being the thrown `Error`'s message.
* The remote service is an oracle passed in as a function argument: the
  response to the i-th call of an operation is the oracle applied to `i`
  (or to the request data, for the pagination loops).
* Wall-clock time (`Date.now()`) is an environment input: the per-document
  timestamp is `now i`, poll-loop time advances by the 2000 ms poll interval
  per iteration, and the reported batch `duration` is an input.
* Variant B operations additionally thread a network-call counter `netCalls`
  so that "makes no network call" is expressible.
-/

set_option linter.unusedVariables false

/-- Processing state of a remote file (`FileSearchFile.state` in
`src/lib/types/data-sources.ts`). -/
inductive FileState where
  | STATE_UNSPECIFIED
  | PROCESSING
  | ACTIVE
  | FAILED
deriving DecidableEq, Repr

/-- The `error` payload of a failed remote file. -/
structure FileError where
  code : Int
  message : String
deriving DecidableEq, Repr

/-- Remote file record (`FileSearchFile` in `src/lib/types/data-sources.ts`).
The optional fields `uri`, `expirationTime` and the open-ended `metadata`
map are omitted: no code path under verification reads them. -/
structure FileSearchFile where
  name : String
  displayName : Option String := none
  mimeType : String
  sizeBytes : String
  createTime : String
  updateTime : String
  sha256Hash : String
  state : FileState
  error : Option FileError := none
deriving DecidableEq, Repr

/-- Remote corpus / store record (`FileSearchCorpus`). -/
structure FileSearchCorpus where
  name : String
  displayName : String
  createTime : String
  updateTime : String
deriving DecidableEq, Repr

/-- Document metadata (`DocumentMetadata`). In TypeScript `source` is the
string union `'github' | 'slack' | 'atlassian'`; it is modelled as `String`
because the code under verification only ever uses its string value. The
optional fields (`title`, `author`, timestamps) and the open-ended extra
keys are omitted: no code path under verification reads them. -/
structure DocumentMetadata where
  source : String
  type : String
  id : String
  url : String
deriving DecidableEq, Repr

/-- A document to be ingested (`Document`). -/
structure Document where
  content : String
  metadata : DocumentMetadata
  fileName : Option String := none
deriving DecidableEq, Repr

/-- Per-document outcome (`UploadResult` in `uploader.ts`). -/
structure UploadResult where
  success : Bool
  fileName : String
  fileId : Option String := none
  error : Option String := none
deriving DecidableEq, Repr

/-- Batch outcome (`BatchUploadResult` in `uploader.ts`). -/
structure BatchUploadResult where
  totalDocuments : Nat
  successCount : Nat
  failureCount : Nat
  results : List UploadResult
  duration : Nat
deriving DecidableEq, Repr

/-- JavaScript `str.split('/')` at the character level: splits on every
`'/'`, keeping empty segments, and always yields at least one segment
(structural recursion so concrete inputs evaluate in the kernel). -/
def splitOnSlash : List Char → List (List Char)
  | [] => [[]]
  | c :: cs =>
    match splitOnSlash cs with
    | [] => [[]]
    | g :: gs => if c = '/' then [] :: g :: gs else (c :: g) :: gs

/-- `extractFileId` / `extractCorpusId` / `extractStoreId`:
`resourceName.split('/').pop() || resourceName`. The split always yields at
least one element, and the `||` falls back to the whole name when the last
segment is the (falsy) empty string. -/
def extractFileId (resourceName : String) : String :=
  match ((splitOnSlash resourceName.data).map (fun cs => String.mk cs)).getLast? with
  | none => resourceName
  | some s => if s = "" then resourceName else s

/-- One page of a paginated list response: the page's items together with
the optional continuation token (`nextPageToken`). -/
structure ListPage (α : Type) where
  items : List α
  nextPageToken : Option String
deriving DecidableEq, Repr

/-- JavaScript truthiness of a `string | undefined` continuation token:
`undefined` and the empty string are falsy. -/
def truthyToken : Option String → Bool
  | none => false
  | some s => !(s == "")

/-- The `do { ... } while (pageToken)` pagination loop shared verbatim by
`listAllCorpora` (both client variants) and `listAllFiles`
(the paginated client): fetch the page for the current token, append its
items, and continue while the returned token is truthy. `fuel` bounds the
number of iterations so the (source-level unbounded) loop is total;
`none` means the fuel ran out before the loop exited. -/
def listAllLoop (pages : Option String → ListPage α) :
    List α → Option String → Nat → Option (List α)
  | _, _, 0 => none
  | acc, tok, fuel + 1 =>
    let resp := pages tok
    if truthyToken resp.nextPageToken then
      listAllLoop pages (acc ++ resp.items) resp.nextPageToken fuel
    else
      some (acc ++ resp.items)

/-- `FileSearchClient.listAllCorpora`: auto-pagination over `listCorpora`,
starting from an absent page token. -/
def listAllCorpora (listCorporaResp : Option String → ListPage FileSearchCorpus)
    (fuel : Nat) : Option (List FileSearchCorpus) :=
  listAllLoop listCorporaResp [] none fuel

/-- `FileSearchClient.listAllFiles`: auto-pagination over `listFiles` for a
fixed store, starting from an absent page token. -/
def listAllFiles (listFilesResp : String → Option String → ListPage FileSearchFile)
    (storeId : String) (fuel : Nat) : Option (List FileSearchFile) :=
  listAllLoop (listFilesResp storeId) [] none fuel

/-- The token chain induced by repeatedly following `nextPageToken`:
`chainTok pages tok k` is the token used by the k-th request after starting
from token `tok` (`chainTok pages tok 0 = tok`). -/
def chainTok (pages : Option String → ListPage α) (tok : Option String) : Nat → Option String
  | 0 => tok
  | k + 1 => (pages (chainTok pages tok k)).nextPageToken

/-- Concatenation of the items of the first `k` pages along the token chain
starting at `tok`, in the order the pages are returned. -/
def chainItems (pages : Option String → ListPage α) : Option String → Nat → List α
  | _, 0 => []
  | tok, k + 1 => (pages tok).items ++ chainItems pages (pages tok).nextPageToken k

/-- Modelled from the spec: the pagination loop as the spec's words describe
it — "stop exactly when a response carries no `nextPageToken`" — i.e. the
loop continues whenever the token is present, even when it is the empty
string. Used only to compare against the source's `listAllLoop`. -/
def listAllLoopSpec (pages : Option String → ListPage α) :
    List α → Option String → Nat → Option (List α)
  | _, _, 0 => none
  | acc, tok, fuel + 1 =>
    let resp := pages tok
    match resp.nextPageToken with
    | some t => listAllLoopSpec pages (acc ++ resp.items) (some t) fuel
    | none => some (acc ++ resp.items)

namespace VariantA

/-- The message used when a poll observes `state == FAILED`:
`file.error?.message || 'Unknown error'` (an empty server message is falsy
and falls back to the generic text). -/
def serverFailureMsg (file : FileSearchFile) : String :=
  match file.error with
  | some fe => if fe.message = "" then "Unknown error" else fe.message
  | none => "Unknown error"

/-- The variant-A polling loop of `waitForFileProcessing`. `getFile k` is
the outcome of the k-th `getFile` poll (`Except.error` when the GET itself
throws). Idealized time: the k-th poll happens at elapsed time
`k * 2000` ms (the poll interval), the loop guard being
`Date.now() - startTime < maxWaitMs`. The structural `fuel` counts the
remaining permitted iterations; `waitForFileProcessing` supplies enough
fuel that the fuel can only run out once the time guard is false, so the
`0`-fuel branch returns the same timeout error the guard produces. -/
def waitLoop (getFile : Nat → Except String FileSearchFile) (maxWaitMs : Nat) :
    Nat → Nat → Except String FileSearchFile
  | 0, _ => Except.error ("File processing timeout after " ++ toString maxWaitMs ++ "ms")
  | fuel + 1, k =>
    if k * 2000 < maxWaitMs then
      match getFile k with
      | Except.error e => Except.error e
      | Except.ok file =>
        if file.state = FileState.ACTIVE then Except.ok file
        else if file.state = FileState.FAILED then
          Except.error ("File processing failed: " ++ serverFailureMsg file)
        else
          waitLoop getFile maxWaitMs fuel (k + 1)
    else
      Except.error ("File processing timeout after " ++ toString maxWaitMs ++ "ms")

/-- `FileSearchClient.waitForFileProcessing` (variant A): poll `getFile`
every 2000 ms until `ACTIVE`, `FAILED`, or `maxWaitMs` elapses. Any `k`
with `k * 2000 < maxWaitMs` satisfies `k < maxWaitMs / 2000 + 1`, so the
chosen fuel never cuts the loop short before its time guard does. -/
def waitForFileProcessing (getFile : Nat → Except String FileSearchFile)
    (maxWaitMs : Nat := 60000) : Except String FileSearchFile :=
  waitLoop getFile maxWaitMs (maxWaitMs / 2000 + 1) 0

/-- The k-th poll returns a file in a non-terminal state (still
`PROCESSING` or `STATE_UNSPECIFIED`), so the loop sleeps and retries. -/
def nonTerminalPoll (getFile : Nat → Except String FileSearchFile) (k : Nat) : Prop :=
  ∃ f, getFile k = Except.ok f ∧ f.state ≠ FileState.ACTIVE ∧ f.state ≠ FileState.FAILED

end VariantA

namespace VariantB

/-- The unsupported-operation error message thrown by variant-B
`getFile` / `deleteFile`. -/
def unsupportedMsg : String :=
  "Individual file operations not supported in FileSearchStores API"

/-- Variant-B `getFile`: throws immediately; the network-call counter is
returned unchanged because the body performs no `fetch`. -/
def getFile (storeId fileId : String) (netCalls : Nat) :
    Except String FileSearchFile × Nat :=
  (Except.error unsupportedMsg, netCalls)

/-- Variant-B `deleteFile`: throws immediately; no `fetch`. -/
def deleteFile (storeId fileId : String) (netCalls : Nat) :
    Except String Unit × Nat :=
  (Except.error unsupportedMsg, netCalls)

/-- Variant-B `listFiles`: logs a warning and returns an empty page; no
`fetch`. -/
def listFiles (storeId : String) (netCalls : Nat) :
    (List FileSearchFile × Option String) × Nat :=
  (([], none), netCalls)

/-- The synthetic file fabricated by variant-B `waitForFileProcessing`:
`new Date().toISOString()` is the environment input `nowIso`. -/
def syntheticActiveFile (fileId : String) (nowIso : String) : FileSearchFile :=
  { name := fileId
    displayName := some fileId
    mimeType := "text/plain"
    sizeBytes := "0"
    createTime := nowIso
    updateTime := nowIso
    sha256Hash := ""
    state := FileState.ACTIVE
    error := none }

/-- Variant-B `waitForFileProcessing`: returns the synthetic `ACTIVE` file
immediately; no `getFile` poll, no `fetch`, `maxWaitMs` unused. -/
def waitForFileProcessing (storeId fileId : String) (maxWaitMs : Nat := 60000)
    (nowIso : String := "") (netCalls : Nat := 0) :
    Except String FileSearchFile × Nat :=
  (Except.ok (syntheticActiveFile fileId nowIso), netCalls)

end VariantB

/-- `FileSearchUploader.generateFileName`:
`` `${source}-${type}-${id}-${timestamp}.md` `` with `timestamp = Date.now()`
passed in as `now`. -/
def generateFileName (doc : Document) (now : Nat) : String :=
  doc.metadata.source ++ "-" ++ doc.metadata.type ++ "-" ++ doc.metadata.id
    ++ "-" ++ toString now ++ ".md"

/-- Line 43 of `uploader.ts`:
`document.fileName || this.generateFileName(document)` — an absent or
empty-string (falsy) `fileName` makes the uploader generate one. -/
def chosenFileName (doc : Document) (now : Nat) : String :=
  match doc.fileName with
  | some s => if s = "" then generateFileName doc now else s
  | none => generateFileName doc now

/-- `FileSearchUploader.uploadDocument`: try `uploadFile` then
`waitForFileProcessing`; the surrounding `catch` turns any thrown error
into a failed `UploadResult` carrying the error's message. `upResp` and
`waitResp` are the outcomes of the two client calls for this document. -/
def uploadDocument (doc : Document) (now : Nat)
    (upResp waitResp : Except String FileSearchFile) : UploadResult :=
  let fileName := chosenFileName doc now
  match upResp with
  | Except.error e => { success := false, fileName := fileName, error := some e }
  | Except.ok file =>
    match waitResp with
    | Except.error e => { success := false, fileName := fileName, error := some e }
    | Except.ok _ =>
      { success := true, fileName := fileName, fileId := some (extractFileId file.name) }

/-- The sequential `for (const document of documents)` loop of
`uploadDocuments`: the i-th document consumes the i-th client responses
and the i-th clock reading; `i` is the position of the head of the
remaining list within the original batch. -/
def uploadDocumentsLoop (up wait : Nat → Except String FileSearchFile)
    (now : Nat → Nat) : List Document → Nat → List UploadResult
  | [], _ => []
  | d :: ds, i =>
    uploadDocument d (now i) (up i) (wait i) :: uploadDocumentsLoop up wait now ds (i + 1)

/-- `FileSearchUploader.uploadDocuments`: sequential per-document upload
with a fixed 500 ms delay after each attempt, then aggregation. `duration`
is the wall-clock `Date.now() - startTime` supplied by the environment. -/
def uploadDocuments (docs : List Document)
    (up wait : Nat → Except String FileSearchFile) (now : Nat → Nat)
    (duration : Nat) : BatchUploadResult :=
  let results := uploadDocumentsLoop up wait now docs 0
  { totalDocuments := docs.length
    successCount := (results.filter (fun r => r.success)).length
    failureCount := (results.filter (fun r => !r.success)).length
    results := results
    duration := duration }

/-- The indexed loop of `uploadDocumentsWithProgress`: same sequencing as
`uploadDocumentsLoop`, additionally recording each
`onProgress(i + 1, total, result)` invocation (in invocation order) when a
callback was supplied. -/
def uploadDocumentsWithProgressLoop (up wait : Nat → Except String FileSearchFile)
    (now : Nat → Nat) (total : Nat) (hasCallback : Bool) :
    List Document → Nat → List UploadResult × List (Nat × Nat × UploadResult)
  | [], _ => ([], [])
  | d :: ds, i =>
    let r := uploadDocument d (now i) (up i) (wait i)
    let rest := uploadDocumentsWithProgressLoop up wait now total hasCallback ds (i + 1)
    (r :: rest.1, (if hasCallback then [(i + 1, total, r)] else []) ++ rest.2)

/-- `FileSearchUploader.uploadDocumentsWithProgress`: returns the batch
result together with the recorded sequence of `onProgress` invocations. -/
def uploadDocumentsWithProgress (docs : List Document)
    (up wait : Nat → Except String FileSearchFile) (now : Nat → Nat)
    (duration : Nat) (hasCallback : Bool) :
    BatchUploadResult × List (Nat × Nat × UploadResult) :=
  let pair := uploadDocumentsWithProgressLoop up wait now docs.length hasCallback docs 0
  ({ totalDocuments := docs.length
     successCount := (pair.1.filter (fun r => r.success)).length
     failureCount := (pair.1.filter (fun r => !r.success)).length
     results := pair.1
     duration := duration }, pair.2)

/-- The per-file loop of `clearCorpus`: each iteration tries
`deleteFile(corpusId, extractFileId(file.name))`, increments
`deletedCount` on success, and a catch swallows (logs) a per-file failure
so the loop continues. `del` maps a file id to the delete outcome. -/
def clearCorpusLoop (del : String → Except String Unit) :
    List FileSearchFile → Nat → Nat
  | [], deletedCount => deletedCount
  | f :: fs, deletedCount =>
    match del (extractFileId f.name) with
    | Except.ok _ => clearCorpusLoop del fs (deletedCount + 1)
    | Except.error _ => clearCorpusLoop del fs deletedCount

/-- `FileSearchUploader.clearCorpus`: list the corpus's files (this call's
failure does propagate), then delete them one by one, counting only the
deletes that succeeded. -/
def clearCorpus (listResp : Except String (List FileSearchFile))
    (del : String → Except String Unit) : Except String Nat :=
  match listResp with
  | Except.error e => Except.error e
  | Except.ok files => Except.ok (clearCorpusLoop del files 0)

/-- Whether the delete of a given file succeeds under delete oracle `del`. -/
def deleteSucceeds (del : String → Except String Unit) (f : FileSearchFile) : Bool :=
  match del (extractFileId f.name) with
  | Except.ok _ => true
  | Except.error _ => false

/-! ## Concrete sample inputs, used by witnesses and counterexamples -/

/-- A sample document without an explicit `fileName`. -/
def sampleDoc : Document :=
  { content := "# Test"
    metadata := { source := "github", type := "issue", id := "42", url := "https://example.com/42" } }

/-- A sample document carrying the empty string as its explicit `fileName`. -/
def emptyNameDoc : Document :=
  { content := "# Test"
    metadata := { source := "github", type := "issue", id := "1", url := "https://example.com/1" }
    fileName := some "" }

/-- A sample document with a non-empty explicit `fileName` override. -/
def overrideDoc : Document :=
  { content := "# Test"
    metadata := { source := "github", type := "pr", id := "2", url := "https://example.com/2" }
    fileName := some "custom.md" }

/-- A sample remote file in the `ACTIVE` state. -/
def activeFile : FileSearchFile :=
  { name := "corpora/c1/files/f1", mimeType := "text/plain", sizeBytes := "6"
    createTime := "t0", updateTime := "t1", sha256Hash := "h", state := FileState.ACTIVE }

/-- A sample remote file still in the `PROCESSING` state. -/
def processingFile : FileSearchFile :=
  { name := "corpora/c1/files/f1", mimeType := "text/plain", sizeBytes := "6"
    createTime := "t0", updateTime := "t1", sha256Hash := "h", state := FileState.PROCESSING }

/-- A sample remote file in the `FAILED` state with a server message. -/
def failedFile : FileSearchFile :=
  { name := "corpora/c1/files/f1", mimeType := "text/plain", sizeBytes := "6"
    createTime := "t0", updateTime := "t1", sha256Hash := "h", state := FileState.FAILED
    error := some { code := 13, message := "quota exhausted" } }

/-- A `getFile` oracle whose every poll reports `ACTIVE`. -/
def pollAlwaysActive : Nat → Except String FileSearchFile :=
  fun _ => Except.ok activeFile

/-- A `getFile` oracle whose every poll reports `PROCESSING`. -/
def pollAlwaysProcessing : Nat → Except String FileSearchFile :=
  fun _ => Except.ok processingFile

/-- Three sample files in a corpus, for the `clearCorpus` scenario. -/
def corpusFile1 : FileSearchFile :=
  { name := "corpora/c1/files/f1", mimeType := "text/plain", sizeBytes := "1"
    createTime := "t0", updateTime := "t1", sha256Hash := "h1", state := FileState.ACTIVE }

def corpusFile2 : FileSearchFile :=
  { name := "corpora/c1/files/f2", mimeType := "text/plain", sizeBytes := "2"
    createTime := "t0", updateTime := "t1", sha256Hash := "h2", state := FileState.ACTIVE }

def corpusFile3 : FileSearchFile :=
  { name := "corpora/c1/files/f3", mimeType := "text/plain", sizeBytes := "3"
    createTime := "t0", updateTime := "t1", sha256Hash := "h3", state := FileState.ACTIVE }

/-- A delete oracle under which deleting the second file (`f2`) fails and
every other delete succeeds. -/
def deleteFailsOnF2 : String → Except String Unit :=
  fun fid => if fid = "f2" then Except.error "delete failed" else Except.ok ()

/-- Two sample corpora for the pagination theorems. -/
def corpusOne : FileSearchCorpus :=
  { name := "corpora/one", displayName := "one", createTime := "t0", updateTime := "t1" }

def corpusTwo : FileSearchCorpus :=
  { name := "corpora/two", displayName := "two", createTime := "t0", updateTime := "t1" }

/-- A paging oracle whose first response carries the empty string as its
`nextPageToken` and whose second page exists (reachable with that token). -/
def pagesEmptyTok : Option String → ListPage FileSearchCorpus
  | none => { items := [corpusOne], nextPageToken := some "" }
  | some _ => { items := [corpusTwo], nextPageToken := none }

/-- A well-behaved two-page oracle: the first response carries the token
`"t1"`, the second response carries no token. -/
def pagesTwo : Option String → ListPage FileSearchCorpus
  | none => { items := [corpusOne], nextPageToken := some "t1" }
  | some _ => { items := [corpusTwo], nextPageToken := none }

/-! ## Helper lemmas -/

lemma length_filter_add_length_filter_not (l : List UploadResult) :
    (l.filter (fun r => r.success)).length
      + (l.filter (fun r => !r.success)).length = l.length := by
  induction l with
  | nil => rfl
  | cons a l ih =>
    cases h : a.success <;> simp [List.filter_cons, h] <;> omega

lemma uploadDocumentsLoop_length (up wait : Nat → Except String FileSearchFile)
    (now : Nat → Nat) (docs : List Document) (k : Nat) :
    (uploadDocumentsLoop up wait now docs k).length = docs.length := by
  induction docs generalizing k with
  | nil => rfl
  | cons d ds ih => simp [uploadDocumentsLoop, ih]

lemma uploadDocumentsLoop_getElem (up wait : Nat → Except String FileSearchFile)
    (now : Nat → Nat) (docs : List Document) (k i : Nat) (h : i < docs.length) :
    (uploadDocumentsLoop up wait now docs k)[i]?
      = some (uploadDocument docs[i] (now (k + i)) (up (k + i)) (wait (k + i))) := by
  induction docs generalizing k i with
  | nil => exact absurd h (Nat.not_lt_zero i)
  | cons d ds ih =>
    cases i with
    | zero => simp [uploadDocumentsLoop]
    | succ i =>
      have h' : i < ds.length := Nat.lt_of_succ_lt_succ h
      have hx := ih (k + 1) i h'
      have harith : k + (i + 1) = k + 1 + i := by omega
      simpa [uploadDocumentsLoop, harith] using hx

lemma uploadDocumentsWithProgressLoop_fst (up wait : Nat → Except String FileSearchFile)
    (now : Nat → Nat) (total : Nat) (hasCallback : Bool)
    (docs : List Document) (k : Nat) :
    (uploadDocumentsWithProgressLoop up wait now total hasCallback docs k).1
      = uploadDocumentsLoop up wait now docs k := by
  induction docs generalizing k with
  | nil => rfl
  | cons d ds ih => simp [uploadDocumentsWithProgressLoop, uploadDocumentsLoop, ih]

lemma uploadDocumentsWithProgressLoop_snd_getElem
    (up wait : Nat → Except String FileSearchFile)
    (now : Nat → Nat) (total : Nat) (docs : List Document) (k i : Nat) :
    (uploadDocumentsWithProgressLoop up wait now total true docs k).2[i]?
      = ((uploadDocumentsLoop up wait now docs k)[i]?).map
          (fun r => (k + i + 1, total, r)) := by
  induction docs generalizing k i with
  | nil => simp [uploadDocumentsWithProgressLoop, uploadDocumentsLoop]
  | cons d ds ih =>
    cases i with
    | zero => simp [uploadDocumentsWithProgressLoop, uploadDocumentsLoop]
    | succ i =>
      have := ih (k + 1) i
      have harith : k + (i + 1) + 1 = k + 1 + i + 1 := by omega
      simpa [uploadDocumentsWithProgressLoop, uploadDocumentsLoop, harith] using this

lemma uploadDocumentsWithProgressLoop_snd_nil
    (up wait : Nat → Except String FileSearchFile)
    (now : Nat → Nat) (total : Nat) (docs : List Document) (k : Nat) :
    (uploadDocumentsWithProgressLoop up wait now total false docs k).2 = [] := by
  induction docs generalizing k with
  | nil => rfl
  | cons d ds ih => simp [uploadDocumentsWithProgressLoop, ih]

lemma clearCorpusLoop_eq (del : String → Except String Unit)
    (files : List FileSearchFile) (acc : Nat) :
    clearCorpusLoop del files acc = acc + (files.filter (deleteSucceeds del)).length := by
  induction files generalizing acc with
  | nil => simp [clearCorpusLoop]
  | cons f fs ih =>
    cases hdel : del (extractFileId f.name) with
    | ok u =>
      have hds : deleteSucceeds del f = true := by simp [deleteSucceeds, hdel]
      have hstep : clearCorpusLoop del (f :: fs) acc = clearCorpusLoop del fs (acc + 1) := by
        simp [clearCorpusLoop, hdel]
      rw [hstep, ih, List.filter_cons, hds]
      simp; omega
    | error e =>
      have hds : deleteSucceeds del f = false := by simp [deleteSucceeds, hdel]
      have hstep : clearCorpusLoop del (f :: fs) acc = clearCorpusLoop del fs acc := by
        simp [clearCorpusLoop, hdel]
      rw [hstep, ih, List.filter_cons, hds]
      simp

lemma chainTok_shift (pages : Option String → ListPage α) (tok : Option String) (j : Nat) :
    chainTok pages tok (j + 1) = chainTok pages (pages tok).nextPageToken j := by
  induction j with
  | zero => rfl
  | succ j ih => rw [chainTok, ih, chainTok]

lemma listAllLoop_stops (pages : Option String → ListPage α) :
    ∀ (k : Nat) (tok : Option String) (acc : List α) (fuel : Nat),
      k < fuel →
      (∀ j, j < k → truthyToken (chainTok pages tok (j + 1)) = true) →
      truthyToken (chainTok pages tok (k + 1)) = false →
      listAllLoop pages acc tok fuel = some (acc ++ chainItems pages tok (k + 1)) := by
  intro k
  induction k with
  | zero =>
    intro tok acc fuel hfuel _ hlast
    match fuel, hfuel with
    | fuel + 1, _ =>
      have hlast' : truthyToken (pages tok).nextPageToken = false := hlast
      simp [listAllLoop, hlast', chainItems]
  | succ k ih =>
    intro tok acc fuel hfuel hpre hlast
    match fuel, hfuel with
    | fuel + 1, hfuel =>
      have h0 : truthyToken (pages tok).nextPageToken = true := hpre 0 (Nat.succ_pos k)
      have hstep : listAllLoop pages acc tok (fuel + 1)
          = listAllLoop pages (acc ++ (pages tok).items) (pages tok).nextPageToken fuel := by
        simp [listAllLoop, h0]
      rw [hstep]
      have hpre' : ∀ j, j < k →
          truthyToken (chainTok pages (pages tok).nextPageToken (j + 1)) = true := by
        intro j hj
        have := hpre (j + 1) (Nat.succ_lt_succ hj)
        rwa [chainTok_shift] at this
      have hlast' : truthyToken (chainTok pages (pages tok).nextPageToken (k + 1)) = false := by
        have := hlast
        rwa [chainTok_shift] at this
      rw [ih (pages tok).nextPageToken (acc ++ (pages tok).items) fuel
        (Nat.lt_of_succ_lt_succ hfuel) hpre' hlast']
      rw [show chainItems pages tok (k + 1 + 1)
            = (pages tok).items ++ chainItems pages (pages tok).nextPageToken (k + 1) from rfl]
      rw [List.append_assoc]

lemma listAllLoop_never (pages : Option String → ListPage α) :
    ∀ (fuel : Nat) (tok : Option String) (acc : List α),
      (∀ j, truthyToken (chainTok pages tok (j + 1)) = true) →
      listAllLoop pages acc tok fuel = none := by
  intro fuel
  induction fuel with
  | zero => intro tok acc _; rfl
  | succ fuel ih =>
    intro tok acc hall
    have h0 : truthyToken (pages tok).nextPageToken = true := hall 0
    have hstep : listAllLoop pages acc tok (fuel + 1)
        = listAllLoop pages (acc ++ (pages tok).items) (pages tok).nextPageToken fuel := by
      simp [listAllLoop, h0]
    rw [hstep]
    exact ih (pages tok).nextPageToken (acc ++ (pages tok).items)
      (fun j => by have := hall (j + 1); rwa [chainTok_shift] at this)

namespace VariantA

lemma waitLoop_step (getFile : Nat → Except String FileSearchFile) (maxWaitMs fuel k : Nat)
    (hnt : nonTerminalPoll getFile k) (hk : k * 2000 < maxWaitMs) :
    waitLoop getFile maxWaitMs (fuel + 1) k = waitLoop getFile maxWaitMs fuel (k + 1) := by
  obtain ⟨f, hf, hna, hnf⟩ := hnt
  simp [waitLoop, hk, hf, hna, hnf]

lemma waitLoop_skip (getFile : Nat → Except String FileSearchFile) (maxWaitMs : Nat) :
    ∀ (d i fuel : Nat),
      (∀ j, i ≤ j → j < i + d → nonTerminalPoll getFile j) →
      (i + d) * 2000 < maxWaitMs →
      waitLoop getFile maxWaitMs (fuel + d) i = waitLoop getFile maxWaitMs fuel (i + d) := by
  intro d
  induction d with
  | zero => intro i fuel _ _; rfl
  | succ d ih =>
    intro i fuel hnt hbound
    have hi : i * 2000 < maxWaitMs := by
      have : i ≤ i + (d + 1) := Nat.le_add_right i (d + 1)
      calc i * 2000 ≤ (i + (d + 1)) * 2000 := Nat.mul_le_mul_right 2000 this
        _ < maxWaitMs := hbound
    have h0 : nonTerminalPoll getFile i :=
      hnt i (Nat.le_refl i) (by omega)
    have hstep : waitLoop getFile maxWaitMs (fuel + (d + 1)) i
        = waitLoop getFile maxWaitMs (fuel + d) (i + 1) := by
      have : fuel + (d + 1) = (fuel + d) + 1 := by omega
      rw [this]
      exact waitLoop_step getFile maxWaitMs (fuel + d) i h0 hi
    rw [hstep]
    have hnt' : ∀ j, i + 1 ≤ j → j < (i + 1) + d → nonTerminalPoll getFile j := by
      intro j hj1 hj2
      exact hnt j (by omega) (by omega)
    have hbound' : ((i + 1) + d) * 2000 < maxWaitMs := by
      have : (i + 1) + d = i + (d + 1) := by omega
      rw [this]; exact hbound
    have := ih (i + 1) fuel hnt' hbound'
    rw [this]
    congr 1
    omega

lemma waitLoop_timeout (getFile : Nat → Except String FileSearchFile) (maxWaitMs : Nat) :
    ∀ (fuel k : Nat),
      (∀ j, k ≤ j → j * 2000 < maxWaitMs → nonTerminalPoll getFile j) →
      waitLoop getFile maxWaitMs fuel k
        = Except.error ("File processing timeout after " ++ toString maxWaitMs ++ "ms") := by
  intro fuel
  induction fuel with
  | zero => intro k _; rfl
  | succ fuel ih =>
    intro k hnt
    by_cases hk : k * 2000 < maxWaitMs
    · have h0 : nonTerminalPoll getFile k := hnt k (Nat.le_refl k) hk
      rw [waitLoop_step getFile maxWaitMs fuel k h0 hk]
      exact ih (k + 1) (fun j hj hjb => hnt j (by omega) hjb)
    · simp [waitLoop, hk]

end VariantA

/-! ## Claim theorems -/

/-- C1: For every list of input documents, the `BatchUploadResult` returned
by `uploadDocuments` satisfies
`successCount + failureCount == totalDocuments == results.length`, and for
every index `i`, `results[i]` is the `UploadResult` produced for
`documents[i]` (input order preserved). -/
theorem fileSearch_C1 (docs : List Document) (up wait : Nat → Except String FileSearchFile)
    (now : Nat → Nat) (duration : Nat) :
    (uploadDocuments docs up wait now duration).successCount
        + (uploadDocuments docs up wait now duration).failureCount
      = (uploadDocuments docs up wait now duration).totalDocuments
    ∧ (uploadDocuments docs up wait now duration).totalDocuments
      = (uploadDocuments docs up wait now duration).results.length
    ∧ ∀ i, (h : i < docs.length) →
        (uploadDocuments docs up wait now duration).results[i]?
          = some (uploadDocument docs[i] (now i) (up i) (wait i)) := by
  refine ⟨?_, ?_, ?_⟩
  · simp only [uploadDocuments]
    rw [length_filter_add_length_filter_not, uploadDocumentsLoop_length]
  · simp only [uploadDocuments]
    rw [uploadDocumentsLoop_length]
  · intro i h
    have hx := uploadDocumentsLoop_getElem up wait now docs 0 i h
    simpa [uploadDocuments] using hx

/-- C1 witness: a concrete one-document batch, instantiating the order
preservation clause at index 0. -/
theorem fileSearch_C1_witness :
    (uploadDocuments [sampleDoc] (fun _ => Except.ok activeFile)
        (fun _ => Except.ok activeFile) (fun _ => 7) 42).results[0]?
      = some (uploadDocument sampleDoc 7 (Except.ok activeFile) (Except.ok activeFile)) :=
  (fileSearch_C1 [sampleDoc] (fun _ => Except.ok activeFile)
    (fun _ => Except.ok activeFile) (fun _ => 7) 42).2.2 0 (by decide)

/-- C2: whatever error either Store Client step raises, `uploadDocument`
returns a failed `UploadResult` carrying that error's message (the model is
total, so nothing escapes to the caller): the first conjunct is a failing
`uploadFile`, the second a successful `uploadFile` followed by a failing
`waitForFileProcessing`. -/
theorem fileSearch_C2 (doc : Document) (now : Nat) :
    (∀ (e : String) (wait : Except String FileSearchFile),
      (uploadDocument doc now (Except.error e) wait).success = false
        ∧ (uploadDocument doc now (Except.error e) wait).error = some e)
    ∧ (∀ (file : FileSearchFile) (e : String),
      (uploadDocument doc now (Except.ok file) (Except.error e)).success = false
        ∧ (uploadDocument doc now (Except.ok file) (Except.error e)).error = some e) :=
  ⟨fun _ _ => ⟨rfl, rfl⟩, fun _ _ => ⟨rfl, rfl⟩⟩

/-- C4: when listing succeeds, `clearCorpus` never throws, attempts every
file, and returns exactly the number of files whose delete succeeded; in
particular, with 3 files where deleting the 2nd fails, it returns 2. -/
theorem fileSearch_C4 :
    (∀ (files : List FileSearchFile) (del : String → Except String Unit),
      clearCorpus (Except.ok files) del
        = Except.ok ((files.filter (deleteSucceeds del)).length))
    ∧ clearCorpus (Except.ok [corpusFile1, corpusFile2, corpusFile3]) deleteFailsOnF2
      = Except.ok 2 := by
  constructor
  · intro files del
    simp [clearCorpus, clearCorpusLoop_eq]
  · rfl

/-- C5: variant-B `getFile` and `deleteFile` always raise the
unsupported-operation error naming the limitation, leaving the network-call
counter untouched (no network call). -/
theorem fileSearch_C5 (storeId fileId : String) (netCalls : Nat) :
    VariantB.getFile storeId fileId netCalls
      = (Except.error VariantB.unsupportedMsg, netCalls)
    ∧ VariantB.deleteFile storeId fileId netCalls
      = (Except.error VariantB.unsupportedMsg, netCalls)
    ∧ VariantB.unsupportedMsg
      = "Individual file operations not supported in FileSearchStores API" :=
  ⟨rfl, rfl, rfl⟩

/-- C9: variant-B `waitForFileProcessing` returns, for every store, file,
and wait bound, the synthetic `ACTIVE` file immediately, leaving the
network-call counter untouched (no `getFile` poll, no network call) — so
its `ACTIVE` state reflects no real server-side completion. -/
theorem fileSearch_C9 (storeId fileId : String) (maxWaitMs : Nat)
    (nowIso : String) (netCalls : Nat) :
    VariantB.waitForFileProcessing storeId fileId maxWaitMs nowIso netCalls
      = (Except.ok (VariantB.syntheticActiveFile fileId nowIso), netCalls)
    ∧ (VariantB.syntheticActiveFile fileId nowIso).state = FileState.ACTIVE :=
  ⟨rfl, rfl⟩

/-- C10: every `UploadResult` produced by `uploadDocument` couples its
optional fields to the `success` flag: success implies `fileId` present and
`error` absent; failure implies `error` present and `fileId` absent. -/
theorem fileSearch_C10 (doc : Document) (now : Nat)
    (upResp waitResp : Except String FileSearchFile) :
    ((uploadDocument doc now upResp waitResp).success = true →
      (uploadDocument doc now upResp waitResp).fileId.isSome = true
        ∧ (uploadDocument doc now upResp waitResp).error = none)
    ∧ ((uploadDocument doc now upResp waitResp).success = false →
      (uploadDocument doc now upResp waitResp).error.isSome = true
        ∧ (uploadDocument doc now upResp waitResp).fileId = none) := by
  cases upResp with
  | error e => exact ⟨by intro h; simp [uploadDocument] at h, fun _ => ⟨rfl, rfl⟩⟩
  | ok f =>
    cases waitResp with
    | error e => exact ⟨by intro h; simp [uploadDocument] at h, fun _ => ⟨rfl, rfl⟩⟩
    | ok g => exact ⟨fun _ => ⟨rfl, rfl⟩, by intro h; simp [uploadDocument] at h⟩

/-- C10 witness: the field coupling at a concrete successful upload. -/
theorem fileSearch_C10_witness :
    (uploadDocument sampleDoc 3 (Except.ok activeFile) (Except.ok activeFile)).fileId.isSome = true
    ∧ (uploadDocument sampleDoc 3 (Except.ok activeFile) (Except.ok activeFile)).error = none :=
  (fileSearch_C10 sampleDoc 3 (Except.ok activeFile) (Except.ok activeFile)).1 rfl

/-- C3: variant-A `waitForFileProcessing` (1) returns the file at the first
poll observing `ACTIVE`, (2) raises at the first poll observing `FAILED`,
the raised message carrying a non-empty server message verbatim (an absent
or empty server message falls back to `Unknown error`), and (3) raises the
timeout error when every poll inside the `maxWaitMs` window is
non-terminal — the loop is total, so it never blocks indefinitely. -/
theorem fileSearch_C3 :
    (∀ (getFile : Nat → Except String FileSearchFile) (maxWaitMs k : Nat)
        (file : FileSearchFile),
      (∀ j, j < k → VariantA.nonTerminalPoll getFile j) →
      k * 2000 < maxWaitMs →
      getFile k = Except.ok file →
      file.state = FileState.ACTIVE →
      VariantA.waitForFileProcessing getFile maxWaitMs = Except.ok file)
    ∧ (∀ (getFile : Nat → Except String FileSearchFile) (maxWaitMs k : Nat)
        (file : FileSearchFile),
      (∀ j, j < k → VariantA.nonTerminalPoll getFile j) →
      k * 2000 < maxWaitMs →
      getFile k = Except.ok file →
      file.state = FileState.FAILED →
      VariantA.waitForFileProcessing getFile maxWaitMs
          = Except.error ("File processing failed: " ++ VariantA.serverFailureMsg file)
        ∧ (∀ fe, file.error = some fe → fe.message ≠ "" →
            VariantA.serverFailureMsg file = fe.message))
    ∧ (∀ (getFile : Nat → Except String FileSearchFile) (maxWaitMs : Nat),
      (∀ j, j * 2000 < maxWaitMs → VariantA.nonTerminalPoll getFile j) →
      VariantA.waitForFileProcessing getFile maxWaitMs
        = Except.error ("File processing timeout after " ++ toString maxWaitMs ++ "ms")) := by
  have hreach : ∀ (getFile : Nat → Except String FileSearchFile) (maxWaitMs k : Nat),
      (∀ j, j < k → VariantA.nonTerminalPoll getFile j) →
      k * 2000 < maxWaitMs →
      ∃ f, VariantA.waitForFileProcessing getFile maxWaitMs
        = VariantA.waitLoop getFile maxWaitMs (f + 1) k := by
    intro getFile maxWaitMs k hpre hk
    have hk' : k < maxWaitMs / 2000 + 1 := by omega
    refine ⟨maxWaitMs / 2000 - k, ?_⟩
    have hf : maxWaitMs / 2000 + 1 = (maxWaitMs / 2000 - k + 1) + k := by omega
    unfold VariantA.waitForFileProcessing
    rw [hf]
    have hskip := VariantA.waitLoop_skip getFile maxWaitMs k 0 (maxWaitMs / 2000 - k + 1)
      (fun j h0 hj => hpre j (by omega)) (by omega)
    simpa using hskip
  refine ⟨?_, ?_, ?_⟩
  · intro getFile maxWaitMs k file hpre hk hgf hst
    obtain ⟨f, hw⟩ := hreach getFile maxWaitMs k hpre hk
    rw [hw]
    simp [VariantA.waitLoop, hk, hgf, hst]
  · intro getFile maxWaitMs k file hpre hk hgf hst
    constructor
    · obtain ⟨f, hw⟩ := hreach getFile maxWaitMs k hpre hk
      rw [hw]
      simp [VariantA.waitLoop, hk, hgf, hst]
    · intro fe hfe hne
      simp [VariantA.serverFailureMsg, hfe, hne]
  · intro getFile maxWaitMs hall
    exact VariantA.waitLoop_timeout getFile maxWaitMs (maxWaitMs / 2000 + 1) 0
      (fun j _ hj => hall j hj)

/-- C3 witness: a poll stream that is `ACTIVE` at the first poll returns
that file; a poll stream that never leaves `PROCESSING` times out. -/
theorem fileSearch_C3_witness :
    VariantA.waitForFileProcessing pollAlwaysActive 10000 = Except.ok activeFile
    ∧ VariantA.waitForFileProcessing pollAlwaysProcessing 5000
      = Except.error ("File processing timeout after " ++ toString 5000 ++ "ms") := by
  constructor
  · exact fileSearch_C3.1 pollAlwaysActive 10000 0 activeFile
      (fun j hj => absurd hj (Nat.not_lt_zero j)) (by omega) rfl rfl
  · exact fileSearch_C3.2.2 pollAlwaysProcessing 5000
      (fun j hj => ⟨processingFile, rfl, by decide, by decide⟩)

/-- C6 counterexample: a service whose first response carries
`nextPageToken: ""` — the response carries a token, yet the source's loop
(JS `while (pageToken)`, empty string falsy) stops there, while the
claim's stop-exactly-when-no-token reading (`listAllLoopSpec`) would fetch
the second page. -/
theorem fileSearch_C6_counterexample :
    listAllCorpora pagesEmptyTok 5 = some [corpusOne]
    ∧ listAllLoopSpec pagesEmptyTok [] none 5 = some [corpusOne, corpusTwo]
    ∧ (pagesEmptyTok none).nextPageToken = some ""
    ∧ some [corpusOne] ≠ some [corpusOne, corpusTwo] :=
  ⟨rfl, rfl, rfl, by decide⟩

/-- C6 amended: `listAllCorpora` / `listAllFiles` return the concatenation
of the pages' items in the order the pages are returned, requesting each
next page with the previous response's `nextPageToken`, and stop exactly
when a response's token is absent or empty (JS falsy); when every token
along the chain is present and non-empty the loop never exits (no fuel
suffices). -/
theorem fileSearch_C6_amended :
    (∀ (pages : Option String → ListPage FileSearchCorpus) (k fuel : Nat),
      k < fuel →
      (∀ j, j < k → truthyToken (chainTok pages none (j + 1)) = true) →
      truthyToken (chainTok pages none (k + 1)) = false →
      listAllCorpora pages fuel = some (chainItems pages none (k + 1)))
    ∧ (∀ (filePages : String → Option String → ListPage FileSearchFile)
        (storeId : String) (k fuel : Nat),
      k < fuel →
      (∀ j, j < k → truthyToken (chainTok (filePages storeId) none (j + 1)) = true) →
      truthyToken (chainTok (filePages storeId) none (k + 1)) = false →
      listAllFiles filePages storeId fuel
        = some (chainItems (filePages storeId) none (k + 1)))
    ∧ (∀ (pages : Option String → ListPage FileSearchCorpus),
      (∀ j, truthyToken (chainTok pages none (j + 1)) = true) →
      ∀ fuel, listAllCorpora pages fuel = none) := by
  refine ⟨?_, ?_, ?_⟩
  · intro pages k fuel hf hp hl
    have hx := listAllLoop_stops pages k none [] fuel hf hp hl
    simpa [listAllCorpora] using hx
  · intro filePages storeId k fuel hf hp hl
    have hx := listAllLoop_stops (filePages storeId) k none [] fuel hf hp hl
    simpa [listAllFiles] using hx
  · intro pages hall fuel
    exact listAllLoop_never pages fuel none [] hall

/-- C6 witness: a well-behaved two-page service (token `"t1"` then no
token) yields the two pages' items concatenated in order. -/
theorem fileSearch_C6_witness :
    listAllCorpora pagesTwo 5 = some [corpusOne, corpusTwo] := by
  have h := fileSearch_C6_amended.1 pagesTwo 1 5 (by omega)
    (fun j hj => by
      have hj0 : j = 0 := by omega
      subst hj0
      decide)
    (by decide)
  rw [h]
  rfl

/-- C7: `uploadDocumentsWithProgress` performs the same sequencing as
`uploadDocuments` against the same client responses and returns an equal
`BatchUploadResult` (same `totalDocuments`, `successCount`, `failureCount`
and `results` sequence, for any wall-clock durations), and when a callback
is supplied the i-th recorded invocation is
`onProgress(i + 1, documents.length, results[i])`. -/
theorem fileSearch_C7 (docs : List Document) (up wait : Nat → Except String FileSearchFile)
    (now : Nat → Nat) (dur1 dur2 : Nat) (hasCallback : Bool) :
    (uploadDocumentsWithProgress docs up wait now dur1 hasCallback).1.totalDocuments
      = (uploadDocuments docs up wait now dur2).totalDocuments
    ∧ (uploadDocumentsWithProgress docs up wait now dur1 hasCallback).1.successCount
      = (uploadDocuments docs up wait now dur2).successCount
    ∧ (uploadDocumentsWithProgress docs up wait now dur1 hasCallback).1.failureCount
      = (uploadDocuments docs up wait now dur2).failureCount
    ∧ (uploadDocumentsWithProgress docs up wait now dur1 hasCallback).1.results
      = (uploadDocuments docs up wait now dur2).results
    ∧ (hasCallback = true →
        ∀ i, (uploadDocumentsWithProgress docs up wait now dur1 hasCallback).2[i]?
          = ((uploadDocuments docs up wait now dur2).results[i]?).map
              (fun r => (i + 1, docs.length, r))) := by
  have hfst := uploadDocumentsWithProgressLoop_fst up wait now docs.length hasCallback docs 0
  refine ⟨rfl, ?_, ?_, ?_, ?_⟩
  · simp [uploadDocumentsWithProgress, uploadDocuments, hfst]
  · simp [uploadDocumentsWithProgress, uploadDocuments, hfst]
  · simp [uploadDocumentsWithProgress, uploadDocuments, hfst]
  · rintro rfl i
    have hx := uploadDocumentsWithProgressLoop_snd_getElem up wait now docs.length docs 0 i
    simpa [uploadDocumentsWithProgress, uploadDocuments] using hx

/-- C7 witness: with a callback supplied, the single recorded invocation of
a one-document batch is `(1, 1, results[0])`. -/
theorem fileSearch_C7_witness :
    (uploadDocumentsWithProgress [sampleDoc] (fun _ => Except.ok activeFile)
        (fun _ => Except.ok activeFile) (fun _ => 7) 3 true).2[0]?
      = some (1, 1, uploadDocument sampleDoc 7 (Except.ok activeFile) (Except.ok activeFile)) := by
  have h := (fileSearch_C7 [sampleDoc] (fun _ => Except.ok activeFile)
    (fun _ => Except.ok activeFile) (fun _ => 7) 3 9 true).2.2.2.2 rfl 0
  rw [h]
  rfl

/-- C8 counterexample: a document whose explicit `fileName` is the empty
string — the claim says an explicit override is used unchanged, but the
source's `document.fileName || generateFileName(document)` treats the
(falsy) empty string as absent and generates a name instead. -/
theorem fileSearch_C8_counterexample :
    emptyNameDoc.fileName = some ""
    ∧ chosenFileName emptyNameDoc 5 = "github-issue-1-5.md"
    ∧ ("github-issue-1-5.md" : String) ≠ "" :=
  ⟨rfl, rfl, by decide⟩

/-- C8 amended: for every document whose `fileName` is absent or the empty
string, the name used by the uploader is
`{source}-{type}-{id}-{timestamp}.md` built from the metadata and the
current time; a non-empty explicit `fileName` is used unchanged (the empty
string is treated as absent, by JS `||` truthiness); and `uploadDocument`
uses exactly this name for its result. -/
theorem fileSearch_C8_amended (doc : Document) (now : Nat) :
    ((doc.fileName = none ∨ doc.fileName = some "") →
      chosenFileName doc now
        = doc.metadata.source ++ "-" ++ doc.metadata.type ++ "-" ++ doc.metadata.id
            ++ "-" ++ toString now ++ ".md")
    ∧ (∀ s, doc.fileName = some s → s ≠ "" → chosenFileName doc now = s)
    ∧ (∀ upResp waitResp, (uploadDocument doc now upResp waitResp).fileName
        = chosenFileName doc now) := by
  refine ⟨?_, ?_, ?_⟩
  · rintro (h | h) <;> simp [chosenFileName, h, generateFileName]
  · intro s hs hne
    simp [chosenFileName, hs, hne]
  · intro upResp waitResp
    cases upResp with
    | error e => rfl
    | ok f =>
      cases waitResp with
      | error e => rfl
      | ok g => rfl

/-- C8 witness: the generated name for a concrete document without an
explicit name, and the unchanged override for a concrete document with a
non-empty one. -/
theorem fileSearch_C8_witness :
    chosenFileName sampleDoc 7 = "github-issue-42-7.md"
    ∧ chosenFileName overrideDoc 7 = "custom.md" := by
  constructor
  · have h := (fileSearch_C8_amended sampleDoc 7).1 (Or.inl rfl)
    rw [h]
    rfl
  · exact (fileSearch_C8_amended overrideDoc 7).2.1 "custom.md" rfl (by decide)
